import Mathlib

/-!
Formal model of `petit-sibench.c`, a small concurrent benchmark driver that
issues a mixture of whole-table reads and single-row updates against a data
store from several worker threads until a shared wall-clock deadline passes,
then aggregates per-worker transaction and failure counters into a report.

The model is a shallow embedding of the C source:

* `statementType`, `counterAt`, `updateKey` embed the workload-mix and
  target-key logic of `thread_main` (lines 64-76);
* `runLoop`, `stepCounters`, `thread_main` embed the worker execution loop
  (lines 37-101), with the data-store outcome of each statement and the
  clock value read after it supplied as an environment trace (`IterObs`);
* `atoi`, `scanArgs`, `makeContexts`, `launchThreads`, `joinAll`,
  `sumCounters`, `makeReport`, `runBenchmark` embed `main` (lines 103-238).

Machine integers are modeled as `Nat`/`Int`; C's `%` on integers is
truncating division's remainder, `Int.tmod`.  Operations whose C behavior
is undefined (the modulo with a zero row count) return `Option`.
-/

/-- Outcome of the `PQresultStatus` check on an executed statement:
`ok` when the status is the expected `PGRES_COMMAND_OK` / `PGRES_TUPLES_OK`,
`failed` otherwise (lines 78 and 86). -/
inductive ExecOutcome
  | ok
  | failed
deriving DecidableEq

/-- Model of `struct timeval` as used by the program: seconds and
microseconds, each a machine integer. -/
structure Timeval where
  tv_sec : Int
  tv_usec : Int
deriving DecidableEq

/-- The private counter pair of one worker (`transactions`, `failures`
fields of `struct thread_context`). -/
structure Counters where
  transactions : Nat
  failures : Nat
deriving DecidableEq

/-- The two kinds of statement the mix generator can select. -/
inductive StatementType
  | update
  | read
deriving DecidableEq

/-- Mix decision of line 69: `i % context->cycle == 0` selects the update
branch, anything else the select branch. -/
def statementType (counter cycle : Nat) : StatementType :=
  if counter % cycle = 0 then StatementType.update else StatementType.read

/-- Value of the iteration counter `i` at the k-th loop iteration of the
worker with thread number `wid`: `i` starts at `context->thread_number`
(line 65) and is post-incremented once per iteration (line 69). -/
def counterAt (wid k : Nat) : Nat := wid + k

/-- Target key embedded in the update statement (line 76):
`rand_r(&seed) % context->rows`, where `r` is the non-negative value
returned by `rand_r`.  C's `%` is the truncating remainder `Int.tmod`;
for a zero row count the C expression is undefined (division by zero),
modeled as `none`. -/
def updateKey (rows : Int) (r : Nat) : Option Int :=
  if rows = 0 then none else some (Int.tmod (r : Int) rows)

/-- Keys present in the `sibench` table as provisioned by `main`
(line 171): `insert into sibench select generate_series(1, rows)`. -/
def schemaKeys (rows : Int) : List Int :=
  (List.range rows.toNat).map (fun j => (j : Int) + 1)

/-- Deadline test of lines 92-94: the loop breaks when
`now.tv_sec > finish.tv_sec`, or the seconds are equal and
`now.tv_usec >= finish.tv_usec`. -/
def pastFinishTime (now fin : Timeval) : Bool :=
  now.tv_sec > fin.tv_sec ||
    (now.tv_sec == fin.tv_sec && now.tv_usec >= fin.tv_usec)

/-- Finish-time computation of lines 155-156: read the current time and add
`seconds` to its `tv_sec` field. -/
def computeFinishTime (now : Timeval) (seconds : Int) : Timeval :=
  { tv_sec := now.tv_sec + seconds, tv_usec := now.tv_usec }

/-- Environment observation for one loop iteration: the data-store outcome
of the statement executed in that iteration and the `gettimeofday` value
read right after it (line 91). -/
structure IterObs where
  outcome : ExecOutcome
  clock : Timeval
deriving DecidableEq

/-- Counter update done by both branches of the loop body (lines 78-80 and
86-88): `transactions` is incremented unconditionally, `failures` only when
the result status check failed. -/
def stepCounters (c : Counters) (o : ExecOutcome) : Counters :=
  { transactions := c.transactions + 1,
    failures := c.failures +
      (match o with | ExecOutcome.ok => 0 | ExecOutcome.failed => 1) }

/-- The worker's main loop (lines 66-96): execute one statement, update the
counters, then break if the clock is at or past the finish time, else
continue with the next observation.  `none` means the supplied trace ended
before the deadline was reached (the loop itself has no iteration cap). -/
def runLoop (fin : Timeval) : Counters → List IterObs → Option Counters
  | _, [] => none
  | c, o :: rest =>
    let c2 := stepCounters c o.outcome
    if pastFinishTime o.clock fin then some c2 else runLoop fin c2 rest

/-- How the setup phase of `thread_main` went for one worker:
`connectFailed` models `PQstatus(conn) != CONNECTION_OK` (line 48),
`isolationFailed` models the failed `set default_transaction_isolation`
(line 57), `ok` means both steps succeeded. -/
inductive SetupResult
  | connectFailed
  | isolationFailed
  | ok
deriving DecidableEq

/-- Environment of one worker: how its setup went and the per-iteration
observations its loop would see. -/
structure ThreadEnv where
  setup : SetupResult
  trace : List IterObs
deriving DecidableEq

/-- What a terminated worker leaves behind: its final counters and whether
`PQfinish` was called on its connection before returning. -/
structure ThreadResult where
  counters : Counters
  sessionReleased : Bool
deriving DecidableEq

/-- The worker body `thread_main` (lines 37-101).  On `connectFailed` the
code returns at line 51 without calling `PQfinish`; on `isolationFailed`
it jumps to the `fail` label (line 98) which does call `PQfinish`; on
successful setup it runs the loop and falls through to `fail` after the
deadline break.  Counters start at the zeros stored by `main` (lines
198-199). -/
def thread_main (fin : Timeval) (env : ThreadEnv) : Option ThreadResult :=
  match env.setup with
  | SetupResult.connectFailed =>
      some { counters := { transactions := 0, failures := 0 },
             sessionReleased := false }
  | SetupResult.isolationFailed =>
      some { counters := { transactions := 0, failures := 0 },
             sessionReleased := true }
  | SetupResult.ok =>
      (runLoop fin { transactions := 0, failures := 0 } env.trace).map
        (fun c => { counters := c, sessionReleased := true })

/-- The configuration record built by `main` (lines 121-127): defaults plus
whatever the argument scan overrides. -/
structure CmdConfig where
  conn_info : String
  queries_per_update : Int
  rows : Int
  seconds : Int
  ssi : Bool
  threads : Int
deriving DecidableEq

/-- Default configuration of lines 121-127. -/
def defaultConfig : CmdConfig :=
  { conn_info := "dbname=postgres", queries_per_update := 1, rows := 10,
    seconds := 60, ssi := false, threads := 2 }

/-- Digit-accumulation loop of C `atoi`. -/
def atoiDigits : List Char → Nat → Nat
  | [], acc => acc
  | ch :: rest, acc =>
      if ch.isDigit then atoiDigits rest (acc * 10 + (ch.toNat - 48))
      else acc

/-- Model of C `atoi` as used on the argument values: skip leading
whitespace, read an optional sign, then accumulate leading digits
(0 when there are none). -/
def atoi (s : String) : Int :=
  match s.toList.dropWhile Char.isWhitespace with
  | '-' :: rest => -(atoiDigits rest 0 : Int)
  | '+' :: rest => (atoiDigits rest 0 : Int)
  | cs => (atoiDigits cs 0 : Int)

/-- Argument scan of lines 130-152.  Each option that takes a value
consumes the next argument (and is only recognized when one exists);
anything else reaches the final `else`, which prints usage and exits with
`EXIT_FAILURE`, modeled as `none`.  No option value is validated. -/
def scanArgs : List String → CmdConfig → Option CmdConfig
  | [], cfg => some cfg
  | arg :: rest, cfg =>
    match arg, rest with
    | "--conn-info", v :: r => scanArgs r { cfg with conn_info := v }
    | "--queries-per-update", v :: r =>
        scanArgs r { cfg with queries_per_update := atoi v }
    | "--rows", v :: r => scanArgs r { cfg with rows := atoi v }
    | "--seconds", v :: r => scanArgs r { cfg with seconds := atoi v }
    | "--threads", v :: r => scanArgs r { cfg with threads := atoi v }
    | "--ssi", r => scanArgs r { cfg with ssi := true }
    | _, _ => none

/-- Per-thread context fields set by `main` before launch
(lines 187-200). -/
structure ThreadCtx where
  thread_number : Nat
  rows : Int
  cycle : Int
  transactions : Nat
  failures : Nat
deriving DecidableEq

/-- Context initialization loop of lines 187-200: thread `i` gets
`thread_number = i`, the shared `rows`, zeroed counters and
`cycle = queries_per_update + 1`. -/
def makeContexts (cfg : CmdConfig) : List ThreadCtx :=
  (List.range cfg.threads.toNat).map
    (fun i =>
      { thread_number := i, rows := cfg.rows,
        cycle := cfg.queries_per_update + 1,
        transactions := 0, failures := 0 })

/-- Launch loop of lines 187-209, applied to the list of `pthread_create`
return values: the code aborts (`perror` + `EXIT_FAILURE`, modeled as
`false`) exactly when a return value is negative; otherwise every launch
is treated as successful and the run continues (`true`). -/
def launchThreads : List Int → Bool
  | [] => true
  | ret :: rest => if ret < 0 then false else launchThreads rest

/-- POSIX contract of `pthread_create` (external interface): it returns 0
on success and a positive error number such as `EAGAIN` on failure, never
a negative value.  A launch failed exactly when the return value is
nonzero. -/
def pthreadCreateFailed (ret : Int) : Bool := ret != 0

/-- Join loop of lines 211-218: wait for each worker in order; the driver
reaches aggregation only when every worker terminates (a worker that never
terminates means no report, modeled as `none`). -/
def joinAll (fin : Timeval) : List ThreadEnv → Option (List ThreadResult)
  | [] => some []
  | env :: rest =>
    match thread_main fin env, joinAll fin rest with
    | some r, some rs => some (r :: rs)
    | _, _ => none

/-- Aggregation loop of lines 220-226: fold the per-worker counters into
`(total_transactions, total_failures)`, both starting at 0. -/
def sumCounters (cs : List Counters) : Nat × Nat :=
  cs.foldl (fun acc c => (acc.1 + c.transactions, acc.2 + c.failures)) (0, 0)

/-- The printed report (lines 227-229). -/
structure Report where
  totalTransactions : Nat
  totalFailures : Nat
  tps : Rat
deriving DecidableEq

/-- Report construction of lines 220-229: the totals are the aggregation
sums and the printed TPS divides `total_transactions` by the configured
`seconds` (the `double` division is modeled exactly over `Rat`). -/
def makeReport (cs : List Counters) (seconds : Int) : Report :=
  { totalTransactions := (sumCounters cs).1,
    totalFailures := (sumCounters cs).2,
    tps := ((sumCounters cs).1 : Rat) / (seconds : Rat) }

/-- End-to-end driver (lines 154-229, schema setup aside): compute the
finish time once from the current time and the configured duration, run
and join every worker against it, then build the report from the joined
results. -/
def runBenchmark (now : Timeval) (seconds : Int) (envs : List ThreadEnv) :
    Option Report :=
  (joinAll (computeFinishTime now seconds) envs).map
    (fun rs => makeReport (rs.map (fun r => r.counters)) seconds)

/-- Iterations actually processed by the loop on a given trace: everything
up to and including the first observation whose clock is at or past the
finish time. -/
def takeUntilDeadline (fin : Timeval) : List IterObs → List IterObs
  | [] => []
  | o :: rest =>
    if pastFinishTime o.clock fin then [o]
    else o :: takeUntilDeadline fin rest

/-- Number of failed observations in a trace fragment. -/
def countFailed (l : List IterObs) : Nat :=
  (l.filter (fun o => o.outcome == ExecOutcome.failed)).length

/-- Folding the counter update over a trace fragment. -/
def applyObs (c : Counters) (l : List IterObs) : Counters :=
  l.foldl (fun acc o => stepCounters acc o.outcome) c

/-! ### Helper lemmas (shared) -/

lemma applyObs_nil (c : Counters) : applyObs c [] = c := rfl

lemma applyObs_cons (c : Counters) (o : IterObs) (l : List IterObs) :
    applyObs c (o :: l) = applyObs (stepCounters c o.outcome) l := rfl

lemma stepCounters_transactions (c : Counters) (o : ExecOutcome) :
    (stepCounters c o).transactions = c.transactions + 1 := rfl

lemma stepCounters_failures (c : Counters) (o : ExecOutcome) :
    (stepCounters c o).failures =
      c.failures + (if o = ExecOutcome.failed then 1 else 0) := by
  cases o <;> rfl

lemma applyObs_transactions (l : List IterObs) (c : Counters) :
    (applyObs c l).transactions = c.transactions + l.length := by
  induction l generalizing c with
  | nil => simp [applyObs]
  | cons o l ih =>
      rw [applyObs_cons, ih, stepCounters_transactions, List.length_cons]
      omega

lemma countFailed_cons (o : IterObs) (l : List IterObs) :
    countFailed (o :: l) =
      (if o.outcome = ExecOutcome.failed then 1 else 0) + countFailed l := by
  by_cases h : o.outcome = ExecOutcome.failed <;>
    simp [countFailed, List.filter_cons, h]
  omega

lemma applyObs_failures (l : List IterObs) (c : Counters) :
    (applyObs c l).failures = c.failures + countFailed l := by
  induction l generalizing c with
  | nil => simp [applyObs, countFailed]
  | cons o l ih =>
      rw [applyObs_cons, ih, stepCounters_failures, countFailed_cons]
      omega

lemma countFailed_le_length (l : List IterObs) : countFailed l ≤ l.length :=
  List.length_filter_le _ l

lemma runLoop_eq_applyObs (fin : Timeval) (trace : List IterObs)
    (c c2 : Counters) (h : runLoop fin c trace = some c2) :
    c2 = applyObs c (takeUntilDeadline fin trace) := by
  induction trace generalizing c with
  | nil => simp [runLoop] at h
  | cons o rest ih =>
      by_cases hp : pastFinishTime o.clock fin
      · simp [runLoop, hp] at h
        simp [takeUntilDeadline, hp, applyObs_cons, applyObs_nil, ← h]
      · simp [runLoop, hp] at h
        simp [takeUntilDeadline, hp, applyObs_cons]
        exact ih _ h

lemma takeUntilDeadline_length_pos (fin : Timeval) (o : IterObs)
    (rest : List IterObs) :
    1 ≤ (takeUntilDeadline fin (o :: rest)).length := by
  by_cases hp : pastFinishTime o.clock fin <;> simp [takeUntilDeadline, hp]

lemma runLoop_transactions_lower (fin : Timeval) (trace : List IterObs)
    (c c2 : Counters) (h : runLoop fin c trace = some c2) :
    c.transactions + 1 ≤ c2.transactions := by
  cases trace with
  | nil => simp [runLoop] at h
  | cons o rest =>
      have he := runLoop_eq_applyObs fin (o :: rest) c c2 h
      have hl := takeUntilDeadline_length_pos fin o rest
      rw [he, applyObs_transactions]
      omega

lemma runLoop_append (fin : Timeval) (pre post : List IterObs) (obs : IterObs)
    (c : Counters)
    (hpre : ∀ o ∈ pre, pastFinishTime o.clock fin = false)
    (hobs : pastFinishTime obs.clock fin = true) :
    runLoop fin c (pre ++ obs :: post) = some (applyObs c (pre ++ [obs])) := by
  induction pre generalizing c with
  | nil => simp [runLoop, hobs, applyObs_cons, applyObs_nil]
  | cons p pre ih =>
      have hp : pastFinishTime p.clock fin = false := hpre p (by simp)
      simp only [List.cons_append, runLoop, hp, Bool.false_eq_true,
        if_false, applyObs_cons]
      exact ih _ (fun o ho => hpre o (by simp [ho]))

lemma sumCounters_foldl (cs : List Counters) (a b : Nat) :
    cs.foldl (fun acc c => (acc.1 + c.transactions, acc.2 + c.failures))
        (a, b) =
      (a + (cs.map (fun c => c.transactions)).sum,
       b + (cs.map (fun c => c.failures)).sum) := by
  induction cs generalizing a b with
  | nil => simp
  | cons c cs ih => simp [List.foldl_cons, ih]; omega

lemma sumCounters_eq (cs : List Counters) :
    sumCounters cs =
      ((cs.map (fun c => c.transactions)).sum,
       (cs.map (fun c => c.failures)).sum) := by
  simpa using sumCounters_foldl cs 0 0

lemma sumCounters_zero_cons (cs : List Counters) :
    sumCounters ({ transactions := 0, failures := 0 } :: cs) =
      sumCounters cs := rfl

lemma update_in_window_unique (wid cycle s k1 k2 : Nat)
    (h1 : s ≤ k1 ∧ k1 < s + cycle) (h2 : s ≤ k2 ∧ k2 < s + cycle)
    (m1 : (wid + k1) % cycle = 0) (m2 : (wid + k2) % cycle = 0) :
    k1 = k2 := by
  have d1 : cycle ∣ (wid + k1) := Nat.dvd_of_mod_eq_zero m1
  have d2 : cycle ∣ (wid + k2) := Nat.dvd_of_mod_eq_zero m2
  rcases Nat.le_total k1 k2 with hle | hle
  · have hd : cycle ∣ (wid + k2) - (wid + k1) := Nat.dvd_sub' d2 d1
    have hz := Nat.eq_zero_of_dvd_of_lt hd (by omega)
    omega
  · have hd : cycle ∣ (wid + k1) - (wid + k2) := Nat.dvd_sub' d1 d2
    have hz := Nat.eq_zero_of_dvd_of_lt hd (by omega)
    omega

lemma exists_unique_update (wid cycle s : Nat) (h : 1 ≤ cycle) :
    ∃! k, (s ≤ k ∧ k < s + cycle) ∧ (wid + k) % cycle = 0 := by
  have hdm := Nat.div_add_mod (wid + s) cycle
  have hrlt : (wid + s) % cycle < cycle := Nat.mod_lt _ (by omega)
  by_cases hr0 : (wid + s) % cycle = 0
  · exact ⟨s, ⟨⟨le_refl s, by omega⟩, hr0⟩,
      fun y hy =>
        update_in_window_unique wid cycle s y s hy.1 ⟨le_refl s, by omega⟩
          hy.2 hr0⟩
  · have hmod : (wid + (s + (cycle - (wid + s) % cycle))) % cycle = 0 := by
      rw [show wid + (s + (cycle - (wid + s) % cycle)) =
            cycle * ((wid + s) / cycle + 1) from by rw [Nat.mul_succ]; omega]
      exact Nat.mul_mod_right _ _
    exact ⟨s + (cycle - (wid + s) % cycle), ⟨⟨by omega, by omega⟩, hmod⟩,
      fun y hy =>
        update_in_window_unique wid cycle s y
          (s + (cycle - (wid + s) % cycle)) hy.1 ⟨by omega, by omega⟩
          hy.2 hmod⟩

lemma tmod_coe_one (r : Nat) : Int.tmod (r : Int) 1 = 0 :=
  congrArg Int.ofNat (Nat.mod_one r)

/-! ### Claim theorems -/

/-- Claim C1 (code_bug evidence): the target key embedded in the update
statement is `rand_r(&seed) % rows`, which for `rows = 1` is 0 for every
possible `rand_r` value, yet the table only contains key 1 — the key is
never in the claimed range `[1, rowCount]`; it lies in `[0, rowCount-1]`. -/
theorem update_key_misses_table :
    (∀ r : Nat, updateKey 1 r = some 0) ∧
    (0 : Int) ∉ schemaKeys 1 ∧ (1 : Int) ∈ schemaKeys 1 := by
  refine ⟨fun r => ?_, by decide, by decide⟩
  unfold updateKey
  rw [if_neg (by decide : ¬(1 : Int) = 0), tmod_coe_one]

/-- Claim C2 (code_bug evidence): the session is released on the
isolation-failure path and on every normal loop exit, but on the
connect-failure path `thread_main` returns without calling `PQfinish`. -/
theorem session_release_paths :
    (∀ (fin : Timeval) (trace : List IterObs),
      (thread_main fin ⟨SetupResult.connectFailed, trace⟩).map
        (fun r => r.sessionReleased) = some false) ∧
    (∀ (fin : Timeval) (trace : List IterObs),
      (thread_main fin ⟨SetupResult.isolationFailed, trace⟩).map
        (fun r => r.sessionReleased) = some true) ∧
    (∀ (fin : Timeval) (trace : List IterObs),
      (thread_main fin { setup := SetupResult.ok, trace := trace }).map
          (fun r => r.sessionReleased) =
        (runLoop fin { transactions := 0, failures := 0 } trace).map
          (fun _ => true)) := by
  refine ⟨fun fin trace => rfl, fun fin trace => rfl, fun fin trace => ?_⟩
  show ((runLoop fin { transactions := 0, failures := 0 } trace).map
      (fun c => ({ counters := c, sessionReleased := true } : ThreadResult))).map
      (fun r => r.sessionReleased) =
    (runLoop fin { transactions := 0, failures := 0 } trace).map (fun _ => true)
  rw [Option.map_map]
  rfl

/-- Claim C3 (code_bug evidence): the launch loop only aborts on a negative
`pthread_create` return value, but `pthread_create` reports failure with a
positive error number (e.g. `EAGAIN` = 11), so a failed launch is treated
as success and the run continues. -/
theorem failed_launch_continues :
    pthreadCreateFailed 11 = true ∧ launchThreads [11] = true ∧
    ∀ rets : List Nat, launchThreads (rets.map (fun n => (n : Int))) = true := by
  refine ⟨rfl, rfl, fun rets => ?_⟩
  induction rets with
  | nil => rfl
  | cons n rets ih =>
      simp only [List.map_cons, launchThreads]
      rw [if_neg (by omega : ¬((n : Int) < 0))]
      exact ih

/-- Claim C9 counterexample: a configured `rowCount` of 0 is not treated as
a configuration error — `--rows 0` is accepted by the argument scan and
stored into the configuration, and the per-iteration target-row selection
is reached with `rows = 0`, where the modulo is undefined. -/
theorem rows_zero_reaches_modulo :
    scanArgs ["--rows", "0"] defaultConfig =
      some { defaultConfig with rows := 0 } ∧
    updateKey 0 0 = none := by
  constructor
  · decide
  · rfl

/-- Claim C9 (amended): `rowCount` is never validated — any `--rows` value
is stored as scanned, a zero row count reaches the modulo (whose C
behavior is undefined, modeled as `none`), and only a nonzero row count
makes the target-key selection well-defined. -/
theorem rows_not_validated (v : String) (r : Nat) (rows : Int)
    (hrows : rows ≠ 0) :
    scanArgs ["--rows", v] defaultConfig =
      some { defaultConfig with rows := atoi v } ∧
    updateKey 0 r = none ∧ (updateKey rows r).isSome = true := by
  refine ⟨rfl, rfl, ?_⟩
  unfold updateKey
  rw [if_neg hrows]
  rfl

/-- Witness for `rows_not_validated` at `--rows 7`, `rand_r` value 3,
row count 2. -/
theorem rows_not_validated_witness :
    scanArgs ["--rows", "7"] defaultConfig =
      some { defaultConfig with rows := atoi "7" } ∧
    updateKey 0 3 = none ∧ (updateKey 2 3).isSome = true :=
  rows_not_validated "7" 3 2 (by decide)

/-- Claim C4: an iteration issues an update exactly when the worker's
iteration counter (starting at `workerId`, incremented by 1 each
iteration) is 0 modulo `cycle = queriesPerUpdate + 1`; hence every window
of `cycle` consecutive iterations contains exactly one update, and every
launched context indeed carries `cycle = queries_per_update + 1`. -/
theorem mix_one_update_per_cycle (wid cycle s : Nat) (h : 1 ≤ cycle) :
    (∀ k, statementType (counterAt wid k) cycle = StatementType.update ↔
      (wid + k) % cycle = 0) ∧
    (∃! k, (s ≤ k ∧ k < s + cycle) ∧
      statementType (counterAt wid k) cycle = StatementType.update) ∧
    (∀ cfg : CmdConfig, ∀ ctx ∈ makeContexts cfg,
      ctx.cycle = cfg.queries_per_update + 1) := by
  have hiff : ∀ k,
      statementType (counterAt wid k) cycle = StatementType.update ↔
        (wid + k) % cycle = 0 := by
    intro k
    by_cases h0 : (wid + k) % cycle = 0 <;> simp [statementType, counterAt, h0]
  refine ⟨hiff, ?_, ?_⟩
  · obtain ⟨k0, hk0, huniq⟩ := exists_unique_update wid cycle s h
    exact ⟨k0, ⟨hk0.1, (hiff k0).mpr hk0.2⟩,
      fun y hy => huniq y ⟨hy.1, (hiff y).mp hy.2⟩⟩
  · intro cfg ctx hmem
    simp only [makeContexts, List.mem_map, List.mem_range] at hmem
    obtain ⟨i, _, hctx⟩ := hmem
    rw [← hctx]

/-- Witness for `mix_one_update_per_cycle` at worker 0, cycle length 2
(`queriesPerUpdate = 1`), window start 0. -/
theorem mix_one_update_per_cycle_witness :
    (∀ k, statementType (counterAt 0 k) 2 = StatementType.update ↔
      (0 + k) % 2 = 0) ∧
    (∃! k, (0 ≤ k ∧ k < 0 + 2) ∧
      statementType (counterAt 0 k) 2 = StatementType.update) ∧
    (∀ cfg : CmdConfig, ∀ ctx ∈ makeContexts cfg,
      ctx.cycle = cfg.queries_per_update + 1) :=
  mix_one_update_per_cycle 0 2 0 (by decide)

/-- Claim C5: each loop iteration increments `transactions` exactly once
regardless of the outcome, and increments `failures` exactly when the
statement failed; consequently a worker's final `transactions` equals the
number of iterations it ran and `failures ≤ transactions`. -/
theorem counters_track_iterations (fin : Timeval) (trace : List IterObs)
    (c : Counters)
    (h : runLoop fin { transactions := 0, failures := 0 } trace = some c) :
    (∀ (c0 : Counters) (o : ExecOutcome),
      (stepCounters c0 o).transactions = c0.transactions + 1 ∧
      (stepCounters c0 o).failures =
        c0.failures + (if o = ExecOutcome.failed then 1 else 0)) ∧
    c.transactions = (takeUntilDeadline fin trace).length ∧
    c.failures = countFailed (takeUntilDeadline fin trace) ∧
    c.failures ≤ c.transactions := by
  have he := runLoop_eq_applyObs fin trace _ c h
  have ht : c.transactions = (takeUntilDeadline fin trace).length := by
    rw [he, applyObs_transactions]
    simp
  have hf : c.failures = countFailed (takeUntilDeadline fin trace) := by
    rw [he, applyObs_failures]
    simp
  refine ⟨fun c0 o =>
    ⟨stepCounters_transactions c0 o, stepCounters_failures c0 o⟩,
    ht, hf, ?_⟩
  rw [ht, hf]
  exact countFailed_le_length _

/-- Witness for `counters_track_iterations`: one iteration whose statement
fails with the deadline already past gives final counters (1, 1). -/
theorem counters_track_iterations_witness :
    (∀ (c0 : Counters) (o : ExecOutcome),
      (stepCounters c0 o).transactions = c0.transactions + 1 ∧
      (stepCounters c0 o).failures =
        c0.failures + (if o = ExecOutcome.failed then 1 else 0)) ∧
    ({ transactions := 1, failures := 1 } : Counters).transactions =
      (takeUntilDeadline ⟨0, 0⟩ [⟨ExecOutcome.failed, ⟨0, 0⟩⟩]).length ∧
    ({ transactions := 1, failures := 1 } : Counters).failures =
      countFailed (takeUntilDeadline ⟨0, 0⟩
        [⟨ExecOutcome.failed, ⟨0, 0⟩⟩]) ∧
    ({ transactions := 1, failures := 1 } : Counters).failures ≤
      ({ transactions := 1, failures := 1 } : Counters).transactions :=
  counters_track_iterations ⟨0, 0⟩ [⟨ExecOutcome.failed, ⟨0, 0⟩⟩]
    { transactions := 1, failures := 1 } (by decide)

/-- Claim C7: the finish time is the current time with the configured
duration added to its seconds field, the break test holds exactly when the
clock is lexicographically at or past the finish time, and the loop runs
exactly until the first post-statement check at or past the deadline (with
no iteration cap: the trace beyond that point is arbitrary). -/
theorem deadline_once_and_first_check_exit (now : Timeval) (s : Int)
    (pre post : List IterObs) (obs : IterObs)
    (hpre : ∀ o ∈ pre,
      pastFinishTime o.clock (computeFinishTime now s) = false)
    (hobs : pastFinishTime obs.clock (computeFinishTime now s) = true) :
    computeFinishTime now s =
      { tv_sec := now.tv_sec + s, tv_usec := now.tv_usec } ∧
    (∀ nw fin : Timeval, pastFinishTime nw fin = true ↔
      (fin.tv_sec < nw.tv_sec ∨
        (fin.tv_sec = nw.tv_sec ∧ fin.tv_usec ≤ nw.tv_usec))) ∧
    ∃ c, runLoop (computeFinishTime now s)
        { transactions := 0, failures := 0 } (pre ++ obs :: post) = some c ∧
      c.transactions = pre.length + 1 := by
  refine ⟨rfl, ?_, ?_⟩
  · intro nw fin
    simp only [pastFinishTime, Bool.or_eq_true, Bool.and_eq_true,
      decide_eq_true_eq, beq_iff_eq]
    omega
  · refine ⟨applyObs { transactions := 0, failures := 0 } (pre ++ [obs]),
      runLoop_append _ _ _ _ _ hpre hobs, ?_⟩
    rw [applyObs_transactions]
    simp

/-- Witness for `deadline_once_and_first_check_exit`: duration 1 starting
at second 1, one pre-deadline iteration, then a check at the deadline. -/
theorem deadline_once_and_first_check_exit_witness :
    computeFinishTime ⟨1, 0⟩ 1 =
      { tv_sec := (1 : Int) + 1, tv_usec := (0 : Int) } ∧
    (∀ nw fin : Timeval, pastFinishTime nw fin = true ↔
      (fin.tv_sec < nw.tv_sec ∨
        (fin.tv_sec = nw.tv_sec ∧ fin.tv_usec ≤ nw.tv_usec))) ∧
    ∃ c, runLoop (computeFinishTime ⟨1, 0⟩ 1)
        { transactions := 0, failures := 0 }
        [⟨ExecOutcome.ok, ⟨1, 500000⟩⟩, ⟨ExecOutcome.failed, ⟨2, 0⟩⟩] =
        some c ∧
      c.transactions = 1 + 1 :=
  deadline_once_and_first_check_exit ⟨1, 0⟩ 1 [⟨ExecOutcome.ok, ⟨1, 500000⟩⟩]
    [] ⟨ExecOutcome.failed, ⟨2, 0⟩⟩ (by decide) (by decide)

/-- Claim C10: a worker whose setup succeeded executes the loop body before
the deadline is first consulted, so its final transaction count is at
least 1 — even when the deadline is already past at launch. -/
theorem successful_worker_at_least_one (fin : Timeval) (env : ThreadEnv)
    (r : ThreadResult) (hs : env.setup = SetupResult.ok)
    (h : thread_main fin env = some r) :
    1 ≤ r.counters.transactions := by
  unfold thread_main at h
  rw [hs] at h
  cases hr : runLoop fin { transactions := 0, failures := 0 } env.trace with
  | none => rw [hr] at h; simp at h
  | some c =>
      rw [hr] at h
      have h2 : ({ counters := c, sessionReleased := true } : ThreadResult)
          = r := by simpa using h
      have hlow : 0 + 1 ≤ c.transactions :=
        runLoop_transactions_lower fin env.trace _ c hr
      rw [← h2]
      show 1 ≤ c.transactions
      omega

/-- Witness for `successful_worker_at_least_one`: duration-0 style
deadline (already past at the first check) still yields one counted
transaction. -/
theorem successful_worker_at_least_one_witness :
    thread_main ⟨0, 0⟩ ⟨SetupResult.ok, [⟨ExecOutcome.ok, ⟨0, 0⟩⟩]⟩ =
      some ⟨⟨1, 0⟩, true⟩ ∧
    1 ≤ (⟨⟨1, 0⟩, true⟩ : ThreadResult).counters.transactions :=
  ⟨by decide,
   successful_worker_at_least_one ⟨0, 0⟩
     ⟨SetupResult.ok, [⟨ExecOutcome.ok, ⟨0, 0⟩⟩]⟩ ⟨⟨1, 0⟩, true⟩ rfl
     (by decide)⟩

lemma joinAll_cons (fin : Timeval) (env : ThreadEnv)
    (envs : List ThreadEnv) :
    joinAll fin (env :: envs) =
      match thread_main fin env, joinAll fin envs with
      | some r, some rs => some (r :: rs)
      | _, _ => none := rfl

lemma runBenchmark_zero_head (now : Timeval) (s : Int) (env : ThreadEnv)
    (envs : List ThreadEnv) (zr : ThreadResult)
    (hz : thread_main (computeFinishTime now s) env = some zr)
    (hc : zr.counters = { transactions := 0, failures := 0 }) :
    runBenchmark now s (env :: envs) = runBenchmark now s envs := by
  unfold runBenchmark
  cases hj : joinAll (computeFinishTime now s) envs with
  | none => rw [joinAll_cons, hz, hj]
  | some rs =>
      rw [joinAll_cons, hz, hj]
      show some _ = some _
      congr 1
      show makeReport ((zr :: rs).map (fun r => r.counters)) s = _
      rw [List.map_cons, hc]
      unfold makeReport
      rw [sumCounters_zero_cons]

/-- Claim C6: the report exists exactly when every worker has been joined;
its totals are the sums of the joined workers' final counters and its TPS
figure divides the transaction total by the configured duration. -/
theorem aggregation_after_join (now : Timeval) (s : Int)
    (envs : List ThreadEnv) (rs : List ThreadResult)
    (h : joinAll (computeFinishTime now s) envs = some rs) :
    runBenchmark now s envs =
      some { totalTransactions :=
               (rs.map (fun r => r.counters.transactions)).sum,
             totalFailures := (rs.map (fun r => r.counters.failures)).sum,
             tps := ((rs.map (fun r => r.counters.transactions)).sum : Rat) /
               (s : Rat) } ∧
    (∀ envs2, joinAll (computeFinishTime now s) envs2 = none →
      runBenchmark now s envs2 = none) := by
  constructor
  · unfold runBenchmark
    rw [h]
    simp [makeReport, sumCounters_eq, List.map_map, Function.comp_def]
  · intro envs2 h2
    unfold runBenchmark
    rw [h2]
    rfl

/-- Witness for `aggregation_after_join`: one successful worker that runs
a single successful iteration under a 2-second duration. -/
theorem aggregation_after_join_witness :
    runBenchmark ⟨0, 0⟩ 2
        [⟨SetupResult.ok, [⟨ExecOutcome.ok, ⟨5, 0⟩⟩]⟩] =
      some { totalTransactions :=
               (([⟨⟨1, 0⟩, true⟩] : List ThreadResult).map
                 (fun r => r.counters.transactions)).sum,
             totalFailures :=
               (([⟨⟨1, 0⟩, true⟩] : List ThreadResult).map
                 (fun r => r.counters.failures)).sum,
             tps := ((([⟨⟨1, 0⟩, true⟩] : List ThreadResult).map
                 (fun r => r.counters.transactions)).sum : Rat) /
               ((2 : Int) : Rat) } ∧
    (∀ envs2, joinAll (computeFinishTime ⟨0, 0⟩ 2) envs2 = none →
      runBenchmark ⟨0, 0⟩ 2 envs2 = none) :=
  aggregation_after_join ⟨0, 0⟩ 2
    [⟨SetupResult.ok, [⟨ExecOutcome.ok, ⟨5, 0⟩⟩]⟩]
    [⟨⟨1, 0⟩, true⟩] (by decide)

/-- Claim C8: a worker whose session open or isolation setup fails still
terminates, with both counters zero, and prepending it to a run leaves the
resulting report exactly the report of the remaining workers. -/
theorem failed_worker_excluded (now : Timeval) (s : Int) (env : ThreadEnv)
    (envs : List ThreadEnv) (h : env.setup ≠ SetupResult.ok) :
    (∃ r, thread_main (computeFinishTime now s) env = some r ∧
      r.counters.transactions = 0 ∧ r.counters.failures = 0) ∧
    runBenchmark now s (env :: envs) = runBenchmark now s envs := by
  obtain ⟨setup, trace⟩ := env
  cases setup with
  | ok => exact absurd rfl h
  | connectFailed =>
      exact ⟨⟨_, rfl, rfl, rfl⟩,
        runBenchmark_zero_head now s _ envs _ rfl rfl⟩
  | isolationFailed =>
      exact ⟨⟨_, rfl, rfl, rfl⟩,
        runBenchmark_zero_head now s _ envs _ rfl rfl⟩

/-- Witness for `failed_worker_excluded`: a connect-failed worker next to
one successful worker. -/
theorem failed_worker_excluded_witness :
    (∃ r, thread_main (computeFinishTime ⟨0, 0⟩ 1)
        ⟨SetupResult.connectFailed, []⟩ = some r ∧
      r.counters.transactions = 0 ∧ r.counters.failures = 0) ∧
    runBenchmark ⟨0, 0⟩ 1
        (⟨SetupResult.connectFailed, []⟩ ::
          [⟨SetupResult.ok, [⟨ExecOutcome.ok, ⟨5, 0⟩⟩]⟩]) =
      runBenchmark ⟨0, 0⟩ 1 [⟨SetupResult.ok, [⟨ExecOutcome.ok, ⟨5, 0⟩⟩]⟩] :=
  failed_worker_excluded ⟨0, 0⟩ 1 ⟨SetupResult.connectFailed, []⟩
    [⟨SetupResult.ok, [⟨ExecOutcome.ok, ⟨5, 0⟩⟩]⟩] (by decide)
